import Mathlib

/-!
Verification development for `scripts/build.py` of the marimo-offline-pages
repository: a shallow embedding of the dependency-closure resolver
(`_pyodide_normalize`, `_pyodide_has_package`, `_register_wheel_in_lock`,
`_filter_requires_dist`, `_find_best_version`, `download_pypi_package`,
`resolve_and_download_packages`, `download_marimo_base`), of the patch engine
(`patch_error` / `check_patch_errors` / `patch_mode_url_sync`) and of the
verifier (`_REQUIRED_MARKERS` scan in `verify_build`), together with theorems
about the specified behaviour.

External-library calls (the `packaging` version/specifier/requirement parsers,
the regex engine used by the JS patches) are abstracted as explicit function
parameters; everything written by this file's own code is executable.
-/

namespace Build

/-! ### String helpers

`build.py` manipulates Python `str` values with `startswith`, `endswith`,
`x in s`, single-character `replace` and `lower()`.  We model strings at the
character-list level so every operation reduces in the kernel.
-/

/-- Python `s.startswith(p)`. -/
def strStartsWith (s p : String) : Bool := p.data.isPrefixOf s.data

/-- Python `s.endswith(p)`. -/
def strEndsWith (s p : String) : Bool := p.data.reverse.isPrefixOf s.data.reverse

/-- Occurrence of `needle` as a contiguous sublist of `hay`
(Python `needle in hay` for strings). -/
def subOccurs (needle : List Char) : List Char → Bool
  | [] => needle.isEmpty
  | c :: rest => needle.isPrefixOf (c :: rest) || subOccurs needle rest

/-- Python `needle in hay` on strings. -/
def containsSub (hay needle : String) : Bool := subOccurs needle.data hay.data

/-! ### Package-name normalization (`_pyodide_normalize`, build.py:1227)

```python
def _pyodide_normalize(name):
    return re.sub(r"[-_.]+", "-", name).lower()
```
-/

/-- A character matched by the regex class `[-_.]`. -/
def isSepChar (c : Char) : Bool := c == '-' || c == '_' || c == '.'

/-- `re.sub(r"[-_.]+", "-", ·)` on a character list: every maximal run of
`-`, `_`, `.` is replaced by a single `-`.  The boolean accumulator records
whether the previous character belonged to such a run. -/
def collapseSeps : Bool → List Char → List Char
  | _, [] => []
  | prevSep, c :: rest =>
    if isSepChar c then
      if prevSep then collapseSeps true rest
      else '-' :: collapseSeps true rest
    else c :: collapseSeps false rest

/-- `_pyodide_normalize(name)`: collapse separator runs, then lower-case.
`str.lower()` is modelled characterwise by `Char.toLower`; the names fed to
this function are PEP 508 package names, which are ASCII. -/
def pyodideNormalize (name : String) : String :=
  String.mk ((collapseSeps false name.data).map Char.toLower)

/-! #### Character-level lemmas -/

theorem char_toNat_ofNat_of_lt {n : Nat} (h : n < 55296) : (Char.ofNat n).toNat = n := by
  have hv : n.isValidChar := Or.inl h
  rw [Char.ofNat, dif_pos hv]
  simp [Char.ofNatAux, Char.toNat, UInt32.toNat, BitVec.toNat_ofNatLt]

theorem char_eq_iff_toNat {c d : Char} : c = d ↔ c.toNat = d.toNat := by
  constructor
  · intro h; rw [h]
  · intro h; exact Char.ext (UInt32.toNat.inj h)

theorem toLower_toNat (c : Char) :
    c.toLower.toNat = if 65 ≤ c.toNat ∧ c.toNat ≤ 90 then c.toNat + 32 else c.toNat := by
  simp only [Char.toLower, ge_iff_le]
  split
  · next h => exact char_toNat_ofNat_of_lt (by omega)
  · next h => rfl

theorem isSepChar_iff_toNat {c : Char} :
    isSepChar c = true ↔ c.toNat = 45 ∨ c.toNat = 95 ∨ c.toNat = 46 := by
  unfold isSepChar
  simp only [Bool.or_eq_true, beq_iff_eq]
  constructor
  · rintro ((h | h) | h)
    · subst h; exact Or.inl rfl
    · subst h; exact Or.inr (Or.inl rfl)
    · subst h; exact Or.inr (Or.inr rfl)
  · rintro (h | h | h)
    · exact Or.inl (Or.inl (char_eq_iff_toNat.mpr (by rw [h]; rfl)))
    · exact Or.inl (Or.inr (char_eq_iff_toNat.mpr (by rw [h]; rfl)))
    · exact Or.inr (char_eq_iff_toNat.mpr (by rw [h]; rfl))

theorem isSepChar_toLower (c : Char) : isSepChar c.toLower = isSepChar c := by
  by_cases hsep : isSepChar c = true
  · have hn := isSepChar_iff_toNat.mp hsep
    have : c.toLower.toNat = c.toNat := by
      rw [toLower_toNat]; rcases hn with h | h | h <;> simp [h]
    rw [hsep, isSepChar_iff_toNat]
    rw [this]; exact hn
  · have hn : ¬(c.toNat = 45 ∨ c.toNat = 95 ∨ c.toNat = 46) := fun h =>
      hsep (isSepChar_iff_toNat.mpr h)
    have h2 : ¬(c.toLower.toNat = 45 ∨ c.toLower.toNat = 95 ∨ c.toLower.toNat = 46) := by
      rw [toLower_toNat]; split <;> omega
    have e1 : isSepChar c = false := by
      cases h : isSepChar c
      · rfl
      · exact absurd (isSepChar_iff_toNat.mp h) hn
    have e2 : isSepChar c.toLower = false := by
      cases h : isSepChar c.toLower
      · rfl
      · exact absurd (isSepChar_iff_toNat.mp h) h2
    rw [e1, e2]

theorem toLower_idem (c : Char) : c.toLower.toLower = c.toLower := by
  rw [char_eq_iff_toNat]
  rw [toLower_toNat c.toLower, toLower_toNat]
  split_ifs <;> omega

theorem toLower_dash : Char.toLower '-' = '-' := by
  rw [char_eq_iff_toNat, toLower_toNat]
  simp

/-! #### Structure of the collapsed output -/

/-- Every separator character occurring in `l` is the hyphen. -/
def AllSepsDash (l : List Char) : Prop := ∀ c ∈ l, isSepChar c = true → c = '-'

/-- No two adjacent characters of `l` are both separators. -/
def NoAdjSeps (l : List Char) : Prop :=
  List.Chain' (fun a b => isSepChar a = false ∨ isSepChar b = false) l

theorem collapseSeps_allSepsDash : ∀ (b : Bool) (l : List Char), AllSepsDash (collapseSeps b l) := by
  intro b l
  induction l generalizing b with
  | nil => intro c hc; cases hc
  | cons c rest ih =>
    intro d hd hsep
    by_cases hc : isSepChar c = true
    · simp only [collapseSeps, hc, if_pos] at hd
      cases b with
      | true => simp only [if_pos] at hd; exact ih true d hd hsep
      | false =>
        simp only [Bool.false_eq_true, if_false] at hd
        rcases List.mem_cons.mp hd with h | h
        · exact h
        · exact ih true d h hsep
    · have hc' : isSepChar c = false := by cases h : isSepChar c; rfl; exact absurd h hc
      simp only [collapseSeps, hc', Bool.false_eq_true, if_false] at hd
      rcases List.mem_cons.mp hd with h | h
      · subst h; rw [hsep] at hc'; cases hc'
      · exact ih false d h hsep

theorem collapseSeps_chain : ∀ (l : List Char) (b : Bool),
    NoAdjSeps (collapseSeps b l) ∧
    (b = true → ∀ c, (collapseSeps b l).head? = some c → isSepChar c = false) := by
  intro l
  induction l with
  | nil => intro b; exact ⟨List.chain'_nil, fun _ c hc => by simp [collapseSeps] at hc⟩
  | cons c rest ih =>
    intro b
    by_cases hc : isSepChar c = true
    · cases b with
      | true =>
        have : collapseSeps true (c :: rest) = collapseSeps true rest := by
          simp [collapseSeps, hc]
        rw [this]
        exact ⟨(ih true).1, fun _ => (ih true).2 rfl⟩
      | false =>
        have hrw : collapseSeps false (c :: rest) = '-' :: collapseSeps true rest := by
          simp [collapseSeps, hc]
        rw [hrw]
        constructor
        · rw [NoAdjSeps, List.chain'_cons']
          refine ⟨fun y hy => Or.inr ((ih true).2 rfl y hy), (ih true).1⟩
        · intro hb; cases hb
    · have hc' : isSepChar c = false := by cases h : isSepChar c; rfl; exact absurd h hc
      have hrw : collapseSeps b (c :: rest) = c :: collapseSeps false rest := by
        cases b <;> simp [collapseSeps, hc']
      rw [hrw]
      constructor
      · rw [NoAdjSeps, List.chain'_cons']
        exact ⟨fun y _ => Or.inl hc', (ih false).1⟩
      · intro _ d hd
        simp only [List.head?_cons, Option.some.injEq] at hd
        rw [← hd]; exact hc'

theorem collapseSeps_true_eq_false_of_head_nonsep (c : Char) (t : List Char)
    (h : isSepChar c = false) :
    collapseSeps true (c :: t) = collapseSeps false (c :: t) := by
  simp [collapseSeps, h]

theorem collapseSeps_id (l : List Char) (hd : AllSepsDash l) (hn : NoAdjSeps l) :
    collapseSeps false l = l := by
  induction l with
  | nil => rfl
  | cons c rest ih =>
    have hdr : AllSepsDash rest := fun d hdm => hd d (List.mem_cons_of_mem _ hdm)
    have hnr : NoAdjSeps rest := hn.tail
    by_cases hc : isSepChar c = true
    · have hcd : c = '-' := hd c (List.mem_cons_self _ _) hc
      have hrw : collapseSeps false (c :: rest) = '-' :: collapseSeps true rest := by
        simp [collapseSeps, hc]
      rw [hrw, hcd]
      congr 1
      cases rest with
      | nil => rfl
      | cons d t =>
        have hrel := (List.chain'_cons.mp hn).1
        have hdne : isSepChar d = false := by
          rcases hrel with h | h
          · rw [h] at hc; cases hc
          · exact h
        rw [collapseSeps_true_eq_false_of_head_nonsep d t hdne]
        exact ih hdr hnr
    · have hc' : isSepChar c = false := by cases h : isSepChar c; rfl; exact absurd h hc
      have hrw : collapseSeps false (c :: rest) = c :: collapseSeps false rest := by
        simp [collapseSeps, hc']
      rw [hrw, ih hdr hnr]

theorem allSepsDash_map_toLower {l : List Char} (h : AllSepsDash l) :
    AllSepsDash (l.map Char.toLower) := by
  intro d hdm hsep
  rcases List.mem_map.mp hdm with ⟨c, hcm, hcd⟩
  subst hcd
  rw [isSepChar_toLower] at hsep
  rw [h c hcm hsep]
  exact toLower_dash

theorem noAdjSeps_map_toLower {l : List Char} (h : NoAdjSeps l) :
    NoAdjSeps (l.map Char.toLower) := by
  rw [NoAdjSeps] at h ⊢
  rw [List.chain'_map]
  refine h.imp ?_
  intro a b hab
  rcases hab with hab | hab
  · exact Or.inl (by rw [isSepChar_toLower]; exact hab)
  · exact Or.inr (by rw [isSepChar_toLower]; exact hab)

theorem map_toLower_idem (l : List Char) :
    (l.map Char.toLower).map Char.toLower = l.map Char.toLower := by
  rw [List.map_map]
  exact List.map_congr_left fun c _ => toLower_idem c

/-- **C10.** `_pyodide_normalize` is idempotent and canonical: the output is
lower-case-fixed, its only separator character is the hyphen, no two adjacent
characters are separators, and normalizing an already-normalized name returns
it unchanged — so every manifest / visited-set key (always produced by
`_pyodide_normalize`) is a fixed point of normalization. -/
theorem c10_normalize_idempotent (s : String) :
    pyodideNormalize (pyodideNormalize s) = pyodideNormalize s ∧
    (pyodideNormalize s).data.map Char.toLower = (pyodideNormalize s).data ∧
    (∀ c ∈ (pyodideNormalize s).data, isSepChar c = true → c = '-') ∧
    NoAdjSeps (pyodideNormalize s).data := by
  have hdata : ∀ l : List Char, (String.mk l).data = l := fun _ => rfl
  have hm : (pyodideNormalize s).data = (collapseSeps false s.data).map Char.toLower := by
    rw [pyodideNormalize, hdata]
  have hdash : AllSepsDash (pyodideNormalize s).data := by
    rw [hm]; exact allSepsDash_map_toLower (collapseSeps_allSepsDash false s.data)
  have hadj : NoAdjSeps (pyodideNormalize s).data := by
    rw [hm]; exact noAdjSeps_map_toLower (collapseSeps_chain s.data false).1
  refine ⟨?_, ?_, hdash, hadj⟩
  · show String.mk ((collapseSeps false (pyodideNormalize s).data).map Char.toLower)
      = pyodideNormalize s
    rw [collapseSeps_id _ hdash hadj]
    have hfix : (pyodideNormalize s).data.map Char.toLower = (pyodideNormalize s).data := by
      rw [hm]; exact map_toLower_idem _
    rw [hfix]
  · rw [hm]; exact map_toLower_idem _

/-! ### On-disk wheel bookkeeping (`download_pypi_package`, build.py:1502–1517)

```python
wheel_name = wheel_info["filename"]
wheel_dest = pyodide_dir / wheel_name
if wheel_dest.exists():
    ...
else:
    pkg_under = name.lower().replace("-", "_")
    for old_whl in pyodide_dir.glob(f"{pkg_under}-*.whl"):
        old_whl.unlink()
    for old_whl in pyodide_dir.glob(f"{pkg_key}-*.whl"):
        old_whl.unlink()
    download(wheel_url, wheel_dest)
```

The pyodide directory is modelled as the list of wheel file names it holds.
-/

/-- Characterwise `str.lower()` (package names are ASCII). -/
def pyLowerStr (s : String) : String := String.mk (s.data.map Char.toLower)

/-- `name.lower().replace("-", "_")`: both arguments of `replace` are single
characters, so the substitution is characterwise. -/
def nameUnderscoreForm (name : String) : String :=
  String.mk ((pyLowerStr name).data.map (fun c => if c = '-' then '_' else c))

/-- Membership test of a file name for the glob pattern `f"{pre}-*.whl"`:
the name is `pre ++ "-" ++ mid ++ ".whl"` for some (possibly empty) `mid`.
`Path.glob` is case-sensitive and `*` matches any run of name characters. -/
def globMatchesWheel (pre fname : String) : Bool :=
  strStartsWith fname (pre ++ "-") && strEndsWith fname ".whl" &&
    decide (pre.data.length + 5 ≤ fname.data.length)

/-- The two deletion passes: every on-disk wheel matching
`{pkg_under}-*.whl`, then every one matching `{pkg_key}-*.whl`, is unlinked. -/
def removeStaleWheels (files : List String) (name : String) : List String :=
  (files.filter (fun f => !globMatchesWheel (nameUnderscoreForm name) f)).filter
    (fun f => !globMatchesWheel (pyodideNormalize name) f)

/-- Lines 1502–1517 of `download_pypi_package` as a step on the set of on-disk
wheels: if the exact target wheel is already present nothing happens,
otherwise the two deletion passes run and the new wheel is downloaded.
The second component counts downloads performed. -/
def wheelDownloadStep (files : List String) (name wheelName : String) :
    List String × Nat :=
  if files.contains wheelName then (files, 0)
  else (removeStaleWheels files name ++ [wheelName], 1)

/-- The text of a wheel file name before its first `-`. -/
def takeUntilDash : List Char → List Char
  | [] => []
  | c :: r => if c = '-' then [] else c :: takeUntilDash r

/-- The normalized package a wheel file belongs to: the distribution part of
the wheel file name (everything before the first `-`; PEP 427 escaping never
leaves a `-` inside it), normalized.  This formalizes the spec's phrase
"on-disk archive … per normalized package". -/
def wheelDistKey (fname : String) : String :=
  pyodideNormalize (String.mk (takeUntilDash fname.data))

/-- **C2 counterexample.** An on-disk wheel whose file name capitalizes the
distribution part (`Markdown-3.4-…`, as old-style wheels do) is *not* deleted
when a new wheel for the same normalized package `markdown` is fetched: both
glob forms are lower-case and `glob` is case-sensitive.  After the step two
archives of the normalized package `markdown` are on disk, violating the
claimed at-most-one invariant. -/
theorem c2_counterexample :
    (wheelDownloadStep ["Markdown-3.4-py3-none-any.whl"] "Markdown"
        "Markdown-3.5-py3-none-any.whl").1 =
      ["Markdown-3.4-py3-none-any.whl", "Markdown-3.5-py3-none-any.whl"] ∧
    wheelDistKey "Markdown-3.4-py3-none-any.whl" = pyodideNormalize "Markdown" ∧
    wheelDistKey "Markdown-3.5-py3-none-any.whl" = pyodideNormalize "Markdown" ∧
    ((wheelDownloadStep ["Markdown-3.4-py3-none-any.whl"] "Markdown"
        "Markdown-3.5-py3-none-any.whl").1.filter
      (fun f => wheelDistKey f == pyodideNormalize "Markdown")).length = 2 := by
  decide

/-- **C2 (amended).** When the exact target archive is already on disk nothing
is deleted or downloaded.  Otherwise exactly one download happens and the
resolver deletes exactly the archives matching the globs
`{name.lower().replace('-','_')}-*.whl` and `{normalized-name}-*.whl`; and
*provided* every on-disk archive of the normalized package matches one of
those two literal glob forms, at most one archive (exactly one, when the new
wheel's distribution part normalizes to the package key) remains for the
package after the step. -/
theorem c2_wheel_download_step (files : List String) (name wheelName : String) :
    (files.contains wheelName = true →
      wheelDownloadStep files name wheelName = (files, 0)) ∧
    (files.contains wheelName = false →
      (wheelDownloadStep files name wheelName).2 = 1 ∧
      (wheelDownloadStep files name wheelName).1 =
        (files.filter (fun f => !globMatchesWheel (nameUnderscoreForm name) f &&
          !globMatchesWheel (pyodideNormalize name) f)) ++ [wheelName]) ∧
    (files.contains wheelName = false →
      (∀ f ∈ files, wheelDistKey f = pyodideNormalize name →
        globMatchesWheel (nameUnderscoreForm name) f = true ∨
        globMatchesWheel (pyodideNormalize name) f = true) →
      ((wheelDownloadStep files name wheelName).1.filter
          (fun f => wheelDistKey f == pyodideNormalize name)).length ≤ 1 ∧
      (wheelDistKey wheelName = pyodideNormalize name →
        ((wheelDownloadStep files name wheelName).1.filter
          (fun f => wheelDistKey f == pyodideNormalize name)).length = 1)) := by
  refine ⟨fun h => ?_, fun h => ?_, fun h hall => ?_⟩
  · have hm : wheelName ∈ files := by simpa using h
    simp [wheelDownloadStep, hm]
  · have hm : wheelName ∉ files := by simpa using h
    constructor
    · simp [wheelDownloadStep, hm]
    · have hstep : (wheelDownloadStep files name wheelName).1 =
          removeStaleWheels files name ++ [wheelName] := by
        simp [wheelDownloadStep, hm]
      rw [hstep, removeStaleWheels, List.filter_filter]
      congr 1
      exact List.filter_congr fun f _ => by rw [Bool.and_comm]
  · have hsplit : (removeStaleWheels files name).filter
        (fun f => wheelDistKey f == pyodideNormalize name) = [] := by
      rw [List.filter_eq_nil_iff]
      intro f hf
      rcases List.mem_filter.mp hf with ⟨hf1, hfkeyneg⟩
      rcases List.mem_filter.mp hf1 with ⟨hfmem, hfunderneg⟩
      intro hcontra
      rw [beq_iff_eq] at hcontra
      rcases hall f hfmem hcontra with hg | hg
      · simp [hg] at hfunderneg
      · simp [hg] at hfkeyneg
    have hm2 : wheelName ∉ files := by simpa using h
    have hstep : (wheelDownloadStep files name wheelName).1 =
        removeStaleWheels files name ++ [wheelName] := by
      simp [wheelDownloadStep, hm2]
    rw [hstep, List.filter_append, hsplit, List.nil_append]
    constructor
    · exact List.length_filter_le _ _
    · intro hw
      simp [hw]

/-- Witness for the amended C2 statement at a concrete input: an absent
target wheel triggers exactly one download. -/
theorem c2_wheel_download_step_witness :
    (wheelDownloadStep ["markdown-3.4-py3-none-any.whl"] "markdown"
        "markdown-3.5-py3-none-any.whl").2 = 1 :=
  ((c2_wheel_download_step ["markdown-3.4-py3-none-any.whl"] "markdown"
      "markdown-3.5-py3-none-any.whl").2.1 (by decide)).1

/-! ### The `packaging` library abstraction

`build.py` defers version/specifier/requirement parsing and comparison to the
external `packaging` library.  Its operations enter the embedding as explicit
function parameters; the resolver's own control flow stays concrete.
-/

/-- A parsed PEP 508 requirement (`packaging.requirements.Requirement`):
name, extras, optional specifier set and optional environment marker.
`specifier = none` covers both a missing and an empty (falsy) specifier set,
matching the program's `req.specifier if req.specifier else None`. -/
structure Req (S M : Type) where
  name : String
  extras : List String
  specifier : Option S
  marker : Option M

/-- Abstract interface to `packaging` and to the fixed marker environment
`_pyodide_marker_env()`.  `parseVersion s = none` models `Version(s)` raising
`InvalidVersion`; `inSpec v spec` models `Version(...) in SpecifierSet(str(spec))`
(`spec = none` is the empty specifier set); `evalMarker m` models
`m.evaluate(_pyodide_marker_env())`; `parseReq` models `Requirement(...)` with
`none` for a parse exception.  `vleTrans`/`vleTotal` record that version
comparison is a total preorder, as used by `list.sort`. -/
structure Packaging (V S M : Type) where
  parseVersion : String → Option V
  vle : V → V → Bool
  isPre : V → Bool
  isDev : V → Bool
  inSpec : V → Option S → Bool
  evalMarker : M → Bool
  parseReq : String → Option (Req S M)
  vleTrans : ∀ a b c, vle a b = true → vle b c = true → vle a c = true
  vleTotal : ∀ a b, vle a b || vle b a

/-- One file entry of a release in the PyPI JSON API response. -/
structure FileInfo where
  filename : String
  url : String
deriving DecidableEq

/-- `u["filename"].endswith("-py3-none-any.whl") or
u["filename"].endswith("-py2.py3-none-any.whl")`. -/
def isPureWheel (u : FileInfo) : Bool :=
  strEndsWith u.filename "-py3-none-any.whl" ||
    strEndsWith u.filename "-py2.py3-none-any.whl"

/-- The parts of a PyPI JSON API response used by `_find_best_version`:
`data["info"]["version"]` and `data["releases"]` in dict iteration order. -/
structure PypiData where
  latestVersion : String
  releases : List (String × List FileInfo)

/-- The `(ver, ver_str, u)` candidates collected by the scan loop of
`_find_best_version`: releases whose version string parses, is in the
specifier set, is neither a pre-release nor a dev release, and has a
pure-Python wheel (the first such file, then the inner loop breaks). -/
def scanCandidates (P : Packaging V S M) (spec : Option S) (data : PypiData) :
    List (V × String × FileInfo) :=
  data.releases.filterMap fun vf =>
    match P.parseVersion vf.1 with
    | none => none
    | some v =>
      if !P.inSpec v spec then none
      else if P.isPre v || P.isDev v then none
      else match vf.2.find? isPureWheel with
        | none => none
        | some u => some (v, vf.1, u)

/-- `_find_best_version(pypi_data, specifier)` (build.py:1410–1450).
`Except.error` models the uncaught `InvalidVersion` raised by
`Version(pypi_data["info"]["version"])` when the reported latest version does
not parse — that call is not inside a `try`.  `candidates.sort(key=…,
reverse=True)` followed by `candidates[0]` is a stable descending sort and
head, i.e. `mergeSort` with the flipped comparison. -/
def findBestVersion (P : Packaging V S M) (spec : Option S) (data : PypiData) :
    Except Unit (Option (String × FileInfo)) :=
  match P.parseVersion data.latestVersion with
  | none => .error ()
  | some vLatest =>
    match (if P.inSpec vLatest spec then
            ((data.releases.lookup data.latestVersion).getD []).find? isPureWheel
          else none) with
    | some u => .ok (some (data.latestVersion, u))
    | none =>
      match ((scanCandidates P spec data).mergeSort
          (fun a b => P.vle b.1 a.1)).head? with
      | none => .ok none
      | some c => .ok (some (c.2.1, c.2.2))

/-- A concrete executable instance of the packaging interface with natural
number versions, used to evaluate the resolver at concrete inputs: version
strings "1"/"2"/"3" parse, everything else raises; every parsed version is in
every specifier set; nothing is a pre- or dev-release; no requirement string
parses. -/
def natPackaging : Packaging Nat Unit Unit where
  parseVersion s :=
    if s = "1" then some 1 else if s = "2" then some 2
    else if s = "3" then some 3 else none
  vle a b := decide (a ≤ b)
  isPre _ := false
  isDev _ := false
  inSpec _ _ := true
  evalMarker _ := true
  parseReq _ := none
  vleTrans := by intro a b c h1 h2; simp only [decide_eq_true_eq] at *; omega
  vleTotal := by intro a b; simp only [Bool.or_eq_true, decide_eq_true_eq]; omega

/-- **C1 counterexample.** When the index's reported latest version string
does not parse, `_find_best_version` raises an uncaught `InvalidVersion`
(modelled by `.error ()`) even though an in-range release with a pure wheel
exists — instead of scanning the releases and returning that candidate, or
failing only the branch, as the claim states. -/
theorem c1_counterexample :
    findBestVersion natPackaging none
      { latestVersion := "oops",
        releases := [("1", [⟨"pkg-1-py3-none-any.whl", "u"⟩])] } = .error () ∧
    scanCandidates natPackaging none
      { latestVersion := "oops",
        releases := [("1", [⟨"pkg-1-py3-none-any.whl", "u"⟩])] } =
      [(1, "1", ⟨"pkg-1-py3-none-any.whl", "u"⟩)] := by
  exact ⟨rfl, rfl⟩

/-- The head of a merge sort by a transitive total boolean relation is a
maximum of the list. -/
theorem head_mergeSort_max {α : Type} (le : α → α → Bool)
    (htrans : ∀ a b c, le a b = true → le b c = true → le a c = true)
    (htotal : ∀ a b, le a b || le b a)
    (l : List α) (hl : l ≠ []) :
    ∃ w, (l.mergeSort le).head? = some w ∧ w ∈ l ∧ ∀ y ∈ l, le w y = true := by
  have hperm := List.mergeSort_perm l le
  have hsorted := @List.sorted_mergeSort _ le htrans htotal l
  cases hms : l.mergeSort le with
  | nil =>
    have hp : l.Perm [] := by rw [← hms]; exact hperm.symm
    exact absurd hp.eq_nil hl
  | cons w tail =>
    rw [hms] at hperm hsorted
    refine ⟨w, rfl, ?_, ?_⟩
    · exact hperm.mem_iff.mp (List.mem_cons_self _ _)
    · intro y hy
      have hy' : y ∈ w :: tail := hperm.mem_iff.mpr hy
      rcases List.mem_cons.mp hy' with rfl | hyt
      · simpa using htotal y y
      · exact (List.pairwise_cons.mp hsorted).1 y hyt

/-- **C1 (amended).** `_find_best_version` behaves as the claim states
*provided the reported latest version string parses*: it picks the latest
version when in-range with a pure wheel (the first pure file of its release
list); otherwise it scans all releases — skipping unparseable, pre-release,
dev-release and pure-wheel-less versions — and returns a maximal in-range
candidate, or no version when no candidate remains (branch failure).  When
the latest version string does not parse, the function instead raises an
uncaught exception (`.error`). -/
theorem c1_find_best_version {V S M : Type} (P : Packaging V S M) (spec : Option S)
    (data : PypiData) :
    (P.parseVersion data.latestVersion = none →
      findBestVersion P spec data = .error ()) ∧
    (∀ v u, P.parseVersion data.latestVersion = some v → P.inSpec v spec = true →
      ((data.releases.lookup data.latestVersion).getD []).find? isPureWheel = some u →
      findBestVersion P spec data = .ok (some (data.latestVersion, u))) ∧
    (∀ v, P.parseVersion data.latestVersion = some v →
      (P.inSpec v spec = false ∨
        ((data.releases.lookup data.latestVersion).getD []).find? isPureWheel = none) →
      (scanCandidates P spec data = [] → findBestVersion P spec data = .ok none) ∧
      (scanCandidates P spec data ≠ [] →
        ∃ w, w ∈ scanCandidates P spec data ∧
          findBestVersion P spec data = .ok (some (w.2.1, w.2.2)) ∧
          ∀ c ∈ scanCandidates P spec data, P.vle c.1 w.1 = true)) := by
  refine ⟨fun h => by simp [findBestVersion, h], fun v u hparse hspec hfind => ?_,
    fun v hparse hlatest => ?_⟩
  · simp [findBestVersion, hparse, hspec, hfind]
  · have hpick : (if P.inSpec v spec then
        ((data.releases.lookup data.latestVersion).getD []).find? isPureWheel
      else none) = none := by
      rcases hlatest with h | h
      · rw [if_neg (by rw [h]; exact Bool.false_ne_true)]
      · cases hif : P.inSpec v spec <;> simp [h]
    constructor
    · intro hscan
      simp [findBestVersion, hparse, hpick, hscan]
    · intro hne
      obtain ⟨w, hw1, hw2, hw3⟩ := head_mergeSort_max (fun a b => P.vle b.1 a.1)
        (fun a b c h1 h2 => P.vleTrans c.1 b.1 a.1 h2 h1)
        (fun a b => P.vleTotal b.1 a.1) (scanCandidates P spec data) hne
      refine ⟨w, hw2, ?_, fun c hc => hw3 c hc⟩
      simp [findBestVersion, hparse, hpick, hw1]

/-- Witness for the amended C1 statement: with latest version "2" in range
and carrying a pure wheel, the latest is picked. -/
theorem c1_find_best_version_witness :
    findBestVersion natPackaging none
      { latestVersion := "2",
        releases := [("2", [⟨"pkg-2-py3-none-any.whl", "u2"⟩])] } =
      .ok (some ("2", ⟨"pkg-2-py3-none-any.whl", "u2"⟩)) :=
  (c1_find_best_version natPackaging none
    { latestVersion := "2",
      releases := [("2", [⟨"pkg-2-py3-none-any.whl", "u2"⟩])] }).2.1
    2 ⟨"pkg-2-py3-none-any.whl", "u2"⟩ rfl rfl (by decide)

/-! ### The pyodide-lock manifest -/

/-- A package record of `pyodide-lock.json`, with the fields written by
`_register_wheel_in_lock` and `download_marimo_base`. -/
structure PackageEntry where
  name : String
  version : String
  fileName : String
  installDir : String
  sha256 : String
  packageType : String
  depends : List String
  imports : List String
deriving DecidableEq

/-- The `packages` mapping of `pyodide-lock.json`; a Python dict modelled as
an association list in insertion order. -/
structure LockData where
  packages : List (String × PackageEntry)
deriving DecidableEq

/-- Python dict assignment `d[k] = v`: replace in place or append. -/
def insertAssoc (k : String) (v : PackageEntry) :
    List (String × PackageEntry) → List (String × PackageEntry)
  | [] => [(k, v)]
  | (k', v') :: rest =>
    if k' = k then (k, v) :: rest else (k', v') :: insertAssoc k v rest

/-- `_pyodide_has_package(lock_data, name, specifier)` (build.py:1245–1263).
`lock = none` models a missing pyodide-lock.json.  An unparseable manifested
version is treated as satisfying (`except Exception: return True`). -/
def pyodideHasPackage (P : Packaging V S M) (lock : Option LockData)
    (name : String) (spec : Option S) : Bool :=
  match lock with
  | none => false
  | some ld =>
    match ld.packages.lookup (pyodideNormalize name) with
    | none => false
    | some entry =>
      match spec with
      | none => true
      | some s =>
        match P.parseVersion entry.version with
        | none => true
        | some v => P.inSpec v (some s)

/-- `lock_data["packages"].get(pkg_key, {}).get("version", "?")`
(build.py:1474). -/
def lockBundledVersion (lock : Option LockData) (pkgKey : String) : String :=
  match lock with
  | none => "?"
  | some ld =>
    match ld.packages.lookup pkgKey with
    | none => "?"
    | some e => e.version

/-- The result of `build_git_wheel`: the produced wheel file name and the
metadata extracted from it (`none` when the build fails or the wheel is not
pure Python). -/
structure GitBuildResult where
  wheelName : String
  name : String
  version : String
  requiresDist : List String
  imports : List String

/-- Oracles for the outside world: `fetchMeta` is the PyPI JSON API fetch
(`none` = request exception, caught at build.py:1491), `wheelMeta wheelName`
is `_extract_wheel_metadata` of the wheel, returning its
`(requires_dist, imports)`, `sha wheelName` is the SHA-256 of the wheel
bytes, `buildGit` is `build_git_wheel`.  Archive downloads themselves are
assumed to succeed (an HTTP failure there would propagate out of
`download()`, which no claim concerns). -/
structure Env (V S M : Type) where
  P : Packaging V S M
  fetchMeta : String → Option PypiData
  wheelMeta : String → List String × List String
  sha : String → String
  buildGit : String → Option GitBuildResult

/-- Resolver state: the persisted pyodide-lock.json, the wheel files of the
pyodide directory, the per-run `visited` map, the number of network
operations performed (metadata fetches, wheel downloads and git builds) and
the number of manifest writes. -/
structure RState where
  lock : Option LockData
  files : List String
  visited : List (String × String)
  network : Nat
  writes : Nat
deriving DecidableEq

/-- `_register_wheel_in_lock` (build.py:1266–1284): hash the wheel on disk,
insert/replace the record under the normalized key with `depends: []`, and
write the whole document back (one manifest write).  With no lock file the
function returns without writing. -/
def registerWheelInLock (env : Env V S M) (lock : Option LockData)
    (wheelName name version : String) (imports : List String) :
    Option LockData × Nat :=
  match lock with
  | none => (none, 0)
  | some ld =>
    let entry : PackageEntry :=
      { name := pyodideNormalize name
        version := version
        fileName := wheelName
        installDir := "site"
        sha256 := env.sha wheelName
        packageType := "package"
        depends := []
        imports := if imports.isEmpty then [nameUnderscoreForm name]
          else imports }
    (some { packages := insertAssoc (pyodideNormalize name) entry ld.packages }, 1)

/-- The pyodide-lock.json update of `download_marimo_base`
(build.py:1123–1149): add a `marimo-base` record (with `depends: []`) only
when none is present. -/
def marimoBaseLockUpdate (lock : LockData)
    (wheelName sha marimoVersion : String) : LockData :=
  if (lock.packages.lookup "marimo-base").isSome then lock
  else { packages := lock.packages ++ [("marimo-base",
    { name := "marimo-base", version := marimoVersion, fileName := wheelName,
      installDir := "site", sha256 := sha, packageType := "package",
      depends := [], imports := ["marimo"] })] }

/-- `_filter_requires_dist(requires_dist)` (build.py:1343–1365): parse each
PEP 508 string (unparseable ⇒ dropped silently), drop dependencies whose
marker evaluates false against the fixed Pyodide marker environment, drop
dependencies requesting extras. -/
def filterRequiresDist (P : Packaging V S M) (requiresDist : List String) :
    List (Req S M) :=
  requiresDist.filterMap fun depStr =>
    match P.parseReq depStr with
    | none => none
    | some req =>
      if req.marker.any (fun m => !P.evalMarker m) then none
      else if !req.extras.isEmpty then none
      else some req

/-- The transitive-dependency loop shared verbatim by `download_pypi_package`
(build.py:1529–1543) and the git branch of `resolve_and_download_packages`
(build.py:1578–1591): skip a dependency already visited; mark a dependency
already satisfied by the manifest as `"bundled"`; otherwise resolve it
recursively (the boolean result of the recursive call is ignored, but an
uncaught exception propagates). -/
def depLoop (env : Env V S M)
    (resolve : String → Option S → RState → Except Unit (Bool × RState)) :
    List (Req S M) → RState → Except Unit RState
  | [], st => .ok st
  | dep :: rest, st =>
    if (st.visited.lookup (pyodideNormalize dep.name)).isSome then
      depLoop env resolve rest st
    else if pyodideHasPackage env.P st.lock dep.name dep.specifier then
      depLoop env resolve rest
        { st with visited := (pyodideNormalize dep.name, "bundled") :: st.visited }
    else
      match resolve dep.name dep.specifier st with
      | .error e => .error e
      | .ok (_, st') => depLoop env resolve rest st'

/-- The body of `download_pypi_package` (build.py:1453–1545) with the
recursive call abstracted as `recur`.  In source order: visited
short-circuit; manifest-satisfaction short-circuit (no network); PyPI
metadata fetch (one network operation, failure returns `False`);
`_find_best_version` (`None` ⇒ branch failure; an unparseable latest version
propagates as an exception); record the chosen version in `visited`; skip or
perform the wheel download (`wheelDownloadStep`, one more network operation
when downloading); extract metadata; register in the lock; filter and
recurse into the declared dependencies; return `True`. -/
def downloadPypiPackageAux (env : Env V S M)
    (recur : String → Option S → RState → Except Unit (Bool × RState))
    (name : String) (spec : Option S) (st : RState) :
    Except Unit (Bool × RState) :=
  if (st.visited.lookup (pyodideNormalize name)).isSome then .ok (true, st)
  else if pyodideHasPackage env.P st.lock name spec then
    .ok (true, { st with visited :=
      (pyodideNormalize name,
        lockBundledVersion st.lock (pyodideNormalize name)) :: st.visited })
  else
    let st1 := { st with network := st.network + 1 }
    match env.fetchMeta name with
    | none => .ok (false, st1)
    | some data =>
      match findBestVersion env.P spec data with
      | .error e => .error e
      | .ok none => .ok (false, st1)
      | .ok (some (version, wheelInfo)) =>
        let st2 := { st1 with visited :=
          (pyodideNormalize name, version) :: st1.visited }
        let step := wheelDownloadStep st2.files name wheelInfo.filename
        let st3 := { st2 with files := step.1, network := st2.network + step.2 }
        let meta := env.wheelMeta wheelInfo.filename
        let reg := registerWheelInLock env st3.lock wheelInfo.filename
          name version meta.2
        let st4 := { st3 with lock := reg.1, writes := st3.writes + reg.2 }
        match depLoop env recur (filterRequiresDist env.P meta.1) st4 with
        | .error e => .error e
        | .ok st5 => .ok (true, st5)

/-- `download_pypi_package` with a recursion-depth fuel (the Python function
recurses without an explicit bound; all theorems below hold for every fuel
value, and the short-circuit paths do not recurse at all). -/
def downloadPypiPackage (env : Env V S M) :
    Nat → String → Option S → RState → Except Unit (Bool × RState)
  | 0 => fun _ _ st => .ok (false, st)
  | fuel + 1 => downloadPypiPackageAux env (downloadPypiPackage env fuel)

/-- `shutil.copy` of a built wheel into the pyodide dir
(overwrite or create). -/
def addFile (files : List String) (f : String) : List String :=
  if files.contains f then files else files ++ [f]

/-- The requirement loop of `resolve_and_download_packages`
(build.py:1548–1601): a `git+` requirement always invokes `build_git_wheel`
(one network/build operation; a failed build skips the requirement),
registers the wheel and recurses into its filtered dependencies; any other
requirement string is parsed (unparseable ⇒ skipped with a warning) and
handed to `download_pypi_package`. -/
def reqLoop (env : Env V S M) (fuel : Nat) :
    List String → RState → Except Unit RState
  | [], st => .ok st
  | reqStr :: rest, st =>
    if strStartsWith reqStr "git+" then
      let st1 := { st with network := st.network + 1 }
      match env.buildGit reqStr with
      | none => reqLoop env fuel rest st1
      | some gb =>
        let st2 := { st1 with
          files := addFile st1.files gb.wheelName
          visited := (pyodideNormalize gb.name, gb.version) :: st1.visited }
        let reg := registerWheelInLock env st2.lock gb.wheelName gb.name
          gb.version gb.imports
        let st3 := { st2 with lock := reg.1, writes := st2.writes + reg.2 }
        match depLoop env (downloadPypiPackage env fuel)
            (filterRequiresDist env.P gb.requiresDist) st3 with
        | .error e => .error e
        | .ok st4 => reqLoop env fuel rest st4
    else
      match env.P.parseReq reqStr with
      | none => reqLoop env fuel rest st
      | some req =>
        match downloadPypiPackage env fuel req.name req.specifier st with
        | .error e => .error e
        | .ok (_, st') => reqLoop env fuel rest st'

/-- `resolve_and_download_packages(output_dir, requirements)`: a fresh
`visited`, then the requirement loop. -/
def resolveAndDownloadPackages (env : Env V S M) (fuel : Nat)
    (requirements : List String) (st : RState) : Except Unit RState :=
  reqLoop env fuel requirements { st with visited := [] }

/-! ### Concrete instances used to evaluate the resolver -/

/-- A concrete environment over `natPackaging` where every metadata fetch and
every git build fails: sufficient for exercising the no-network paths. -/
def natEnv : Env Nat Unit Unit where
  P := natPackaging
  fetchMeta _ := none
  wheelMeta _ := ([], [])
  sha _ := "sha"
  buildGit _ := none

/-- A bundled manifest record for `markdown` at version 1.2.3. -/
def mdEntry : PackageEntry where
  name := "markdown"
  version := "1.2.3"
  fileName := "markdown-1.2.3-py3-none-any.whl"
  installDir := "site"
  sha256 := "s"
  packageType := "package"
  depends := []
  imports := ["markdown"]

/-- A manifest containing exactly `markdown` 1.2.3. -/
def mdLock : LockData := { packages := [("markdown", mdEntry)] }

/-- Resolver state whose manifest already bundles `markdown`. -/
def mdState : RState where
  lock := some mdLock
  files := ["markdown-1.2.3-py3-none-any.whl"]
  visited := []
  network := 0
  writes := 0

/-- **C3 counterexample.** A requirement already satisfied by the manifest
succeeds with no network call, but `download_pypi_package` stores the bundled
*version string* (`"1.2.3"`) in `visited`, not the sentinel `"bundled"`
claimed (that sentinel is only used by the transitive-dependency pre-check). -/
theorem c3_counterexample :
    downloadPypiPackage natEnv 1 "markdown" none mdState =
      .ok (true, { mdState with visited := [("markdown", "1.2.3")] }) ∧
    ("1.2.3" : String) ≠ "bundled" := by
  exact ⟨rfl, by decide⟩

/-- **C3 (amended).** When the manifest already holds a satisfying version
and the key is not yet visited, `download_pypi_package` succeeds with no
network call, no manifest write and no file change, marking the key visited
with the bundled version string (not the `"bundled"` sentinel).  And when the
manifested version string does not parse, `_pyodide_has_package` treats any
specifier as satisfied (lenient default), so the no-network path is also
taken for unparseable version data. -/
theorem c3_manifest_short_circuit (env : Env V S M) (fuel : Nat)
    (name : String) (spec : Option S) (st : RState)
    (hnv : (st.visited.lookup (pyodideNormalize name)).isSome = false)
    (hhas : pyodideHasPackage env.P st.lock name spec = true) :
    downloadPypiPackage env (fuel + 1) name spec st =
      .ok (true, { st with visited :=
        (pyodideNormalize name,
          lockBundledVersion st.lock (pyodideNormalize name)) :: st.visited }) ∧
    (∀ ld entry s, st.lock = some ld →
      ld.packages.lookup (pyodideNormalize name) = some entry →
      env.P.parseVersion entry.version = none →
      pyodideHasPackage env.P st.lock name (some s) = true) := by
  constructor
  · show downloadPypiPackageAux env (downloadPypiPackage env fuel) name spec st = _
    rw [downloadPypiPackageAux]
    rw [hnv]
    simp [hhas]
  · intro ld entry s hld hentry hparse
    simp [pyodideHasPackage, hld, hentry, hparse]

/-- Witness for the amended C3 statement at a concrete input. -/
theorem c3_manifest_short_circuit_witness :
    downloadPypiPackage natEnv 3 "markdown" none mdState =
      .ok (true, { mdState with visited := [("markdown", "1.2.3")] }) :=
  (c3_manifest_short_circuit natEnv 2 "markdown" none mdState rfl rfl).1

/-- `List.lookup` finds the value just inserted by `insertAssoc`. -/
theorem lookup_insertAssoc (k : String) (v : PackageEntry)
    (l : List (String × PackageEntry)) :
    (insertAssoc k v l).lookup k = some v := by
  induction l with
  | nil => simp [insertAssoc, List.lookup]
  | cons p rest ih =>
    rcases p with ⟨k', v'⟩
    by_cases h : k' = k
    · simp [insertAssoc, h, List.lookup]
    · rw [insertAssoc, if_neg h, List.lookup]
      have : (k == k') = false := by
        cases hb : k == k'
        · rfl
        · exact absurd (beq_iff_eq.mp hb).symm h
      rw [this]
      exact ih

/-- `List.lookup` finds a record appended behind keys that miss. -/
theorem lookup_append_single {β : Type} (k : String) (v : β)
    (l : List (String × β)) (h : l.lookup k = none) :
    (l ++ [(k, v)]).lookup k = some v := by
  induction l with
  | nil => simp [List.lookup]
  | cons p rest ih =>
    rcases p with ⟨k', v'⟩
    rw [List.cons_append, List.lookup]
    rw [List.lookup] at h
    cases hb : k == k'
    · rw [hb] at h
      exact ih h
    · rw [hb] at h
      cases h

/-- **C9.** Every package record written to the manifest — by
`_register_wheel_in_lock` (used by both the PyPI download path and the
git-build path) and by the marimo-base registration of
`download_marimo_base` — is persisted with an empty declared-dependency
list, regardless of the dependencies that are actually resolved. -/
theorem c9_depends_always_empty (env : Env V S M) (lock : Option LockData)
    (wheelName name version : String) (imports : List String)
    (lk : LockData) (wn sh mv : String) :
    (∀ ld, lock = some ld →
      ∃ lk2, (registerWheelInLock env lock wheelName name version imports).1 =
          some lk2 ∧
        ∃ e, lk2.packages.lookup (pyodideNormalize name) = some e ∧
          e.depends = []) ∧
    ((lk.packages.lookup "marimo-base").isSome = false →
      ∃ e, (marimoBaseLockUpdate lk wn sh mv).packages.lookup "marimo-base" =
        some e ∧ e.depends = []) := by
  constructor
  · rintro ld rfl
    exact ⟨_, rfl, _, lookup_insertAssoc _ _ _, rfl⟩
  · intro habs
    rw [marimoBaseLockUpdate, if_neg (by simp [habs])]
    refine ⟨_, lookup_append_single _ _ _ ?_, rfl⟩
    cases h : lk.packages.lookup "marimo-base"
    · rfl
    · rw [h] at habs; cases habs

/-- Witness for C9 at a concrete registration. -/
theorem c9_depends_always_empty_witness :
    ∃ e, ((marimoBaseLockUpdate mdLock "marimo_base-0.19.11-py3-none-any.whl"
      "sh" "0.19.11").packages.lookup "marimo-base") = some e ∧ e.depends = [] :=
  (c9_depends_always_empty natEnv (some mdLock) "w" "markdown" "1.2.3" []
    mdLock "marimo_base-0.19.11-py3-none-any.whl" "sh" "0.19.11").2 rfl

/-- Shape of one `_filter_requires_dist` loop iteration: the produced
requirement is exactly the parsed one, surviving the marker and extras
checks. -/
theorem filterReq_fun_eq (P : Packaging V S M) (s : String) (req : Req S M) :
    (match P.parseReq s with
     | none => none
     | some r =>
       if r.marker.any (fun m => !P.evalMarker m) then none
       else if !r.extras.isEmpty then none
       else some r) = some req ↔
    P.parseReq s = some req ∧
      req.marker.any (fun m => !P.evalMarker m) = false ∧ req.extras = [] := by
  cases hp : P.parseReq s with
  | none => simp
  | some r =>
    cases hm : r.marker.any (fun m => !P.evalMarker m) with
    | true =>
      simp only [hm, if_true]
      constructor
      · intro h; cases h
      · rintro ⟨h1, h2, _⟩
        rw [Option.some.injEq] at h1
        subst h1
        rw [hm] at h2
        cases h2
    | false =>
      cases he : r.extras.isEmpty with
      | false =>
        simp only [hm, he, Bool.false_eq_true, if_false, Bool.not_false, if_true]
        constructor
        · intro h; cases h
        · rintro ⟨h1, _, h3⟩
          rw [Option.some.injEq] at h1
          subst h1
          rw [h3] at he
          simp at he
      | true =>
        simp only [hm, he, Bool.false_eq_true, if_false, Bool.not_true,
          Option.some.injEq]
        constructor
        · intro h
          subst h
          exact ⟨rfl, hm, List.isEmpty_iff.mp he⟩
        · rintro ⟨h1, _, _⟩
          exact h1

/-- **C4.** A declared dependency survives `_filter_requires_dist` exactly
when its requirement string parses, its marker (if any) evaluates true
against the fixed Pyodide marker environment, and it requests no extras.
When every declared dependency is dropped (unparseable, marker false, or
extras requested), the filtered list is empty and the dependency loop — the
only place recursion and further network access happen — returns the state
untouched: a dropped dependency never triggers a network call or recursion. -/
theorem c4_filter_requires_dist (env : Env V S M)
    (resolve : String → Option S → RState → Except Unit (Bool × RState))
    (rd : List String) (st : RState) :
    (∀ req : Req S M, req ∈ filterRequiresDist env.P rd ↔
      ∃ s ∈ rd, env.P.parseReq s = some req ∧
        req.marker.any (fun m => !env.P.evalMarker m) = false ∧
        req.extras = []) ∧
    ((∀ s ∈ rd, env.P.parseReq s = none ∨
        ∃ r, env.P.parseReq s = some r ∧
          (r.marker.any (fun m => !env.P.evalMarker m) = true ∨
            r.extras ≠ [])) →
      filterRequiresDist env.P rd = [] ∧
      depLoop env resolve (filterRequiresDist env.P rd) st = .ok st) := by
  constructor
  · intro req
    rw [filterRequiresDist, List.mem_filterMap]
    constructor
    · rintro ⟨s, hs, hf⟩
      exact ⟨s, hs, (filterReq_fun_eq env.P s req).mp hf⟩
    · rintro ⟨s, hs, h⟩
      exact ⟨s, hs, (filterReq_fun_eq env.P s req).mpr h⟩
  · intro hall
    have hnil : filterRequiresDist env.P rd = [] := by
      rw [filterRequiresDist, List.filterMap_eq_nil_iff]
      intro s hs
      rcases hall s hs with hp | ⟨r, hp, hbad⟩
      · rw [hp]
      · rw [hp]
        rcases hbad with hb | hb
        · simp [hb]
        · have : r.extras.isEmpty = false := by
            cases hx : r.extras.isEmpty
            · rfl
            · exact absurd (List.isEmpty_iff.mp hx) hb
          cases hm : r.marker.any (fun m => !env.P.evalMarker m) <;>
            simp [hm, this]
    exact ⟨hnil, by rw [hnil]; rfl⟩

/-- Witness for C4: with a parser that rejects every requirement string, the
dependency phase filters everything out and leaves the state untouched. -/
theorem c4_filter_requires_dist_witness :
    filterRequiresDist natEnv.P ["left-pad>=1.0"] = [] ∧
    depLoop natEnv (downloadPypiPackage natEnv 1)
      (filterRequiresDist natEnv.P ["left-pad>=1.0"]) mdState = .ok mdState :=
  (c4_filter_requires_dist natEnv (downloadPypiPackage natEnv 1)
    ["left-pad>=1.0"] mdState).2 (fun _ _ => Or.inl rfl)

/-! ### Idempotence of a re-run (C5) -/

/-- Any `download_pypi_package` call on an already-satisfied requirement (or
with exhausted fuel) changes at most `visited`: no network, no manifest
write, no file change. -/
theorem downloadPypiPackage_short_circuit (env : Env V S M) (fuel : Nat)
    (name : String) (spec : Option S) (st : RState)
    (h : pyodideHasPackage env.P st.lock name spec = true) :
    ∃ b vis, downloadPypiPackage env fuel name spec st =
      .ok (b, { st with visited := vis }) := by
  cases fuel with
  | zero => exact ⟨false, st.visited, rfl⟩
  | succ n =>
    cases hv : (st.visited.lookup (pyodideNormalize name)).isSome with
    | true =>
      refine ⟨true, st.visited, ?_⟩
      show downloadPypiPackageAux env (downloadPypiPackage env n) name spec st = _
      rw [downloadPypiPackageAux, hv]
      rfl
    | false =>
      refine ⟨true, (pyodideNormalize name,
        lockBundledVersion st.lock (pyodideNormalize name)) :: st.visited, ?_⟩
      show downloadPypiPackageAux env (downloadPypiPackage env n) name spec st = _
      rw [downloadPypiPackageAux, hv]
      simp [h]

/-- The requirement loop on a git-free, fully manifest-satisfied requirement
list: no network, no write, no file change, no manifest change. -/
theorem reqLoop_no_network (env : Env V S M) (fuel : Nat) :
    ∀ (reqs : List String) (st : RState),
    (∀ r ∈ reqs, strStartsWith r "git+" = false) →
    (∀ r ∈ reqs, ∀ req, env.P.parseReq r = some req →
      pyodideHasPackage env.P st.lock req.name req.specifier = true) →
    ∃ vis, reqLoop env fuel reqs st = .ok { st with visited := vis } := by
  intro reqs
  induction reqs with
  | nil => exact fun st _ _ => ⟨st.visited, rfl⟩
  | cons r rest ih =>
    intro st hgit hsat
    have hg := hgit r (List.mem_cons_self _ _)
    rw [reqLoop, hg]
    simp only [Bool.false_eq_true, if_false]
    cases hp : env.P.parseReq r with
    | none =>
      exact ih st (fun x hx => hgit x (List.mem_cons_of_mem _ hx))
        (fun x hx => hsat x (List.mem_cons_of_mem _ hx))
    | some req =>
      have hhp := hsat r (List.mem_cons_self _ _) req hp
      obtain ⟨b, vis, hdl⟩ :=
        downloadPypiPackage_short_circuit env fuel req.name req.specifier st hhp
      simp only [hdl]
      obtain ⟨vis2, hrest⟩ := ih { st with visited := vis }
        (fun x hx => hgit x (List.mem_cons_of_mem _ hx))
        (fun x hx => hsat x (List.mem_cons_of_mem _ hx))
      exact ⟨vis2, hrest⟩

/-- **C5 (amended).** For a requirement list with no `git+` entries, all of
whose parseable requirements are already satisfied by the manifest — the
state any successful prior run leaves behind — re-running
`resolve_and_download_packages` issues zero network calls, performs zero
manifest writes and leaves the manifest and the on-disk archives unchanged
(hence persisted bytes are untouched).  Requirement lists with git
requirements do *not* satisfy this: the git branch rebuilds on every run
(see the counterexample). -/
theorem c5_idempotent_rerun (env : Env V S M) (fuel : Nat)
    (reqs : List String) (st : RState)
    (hgit : ∀ r ∈ reqs, strStartsWith r "git+" = false)
    (hsat : ∀ r ∈ reqs, ∀ req, env.P.parseReq r = some req →
      pyodideHasPackage env.P st.lock req.name req.specifier = true) :
    ∃ st', resolveAndDownloadPackages env fuel reqs st = .ok st' ∧
      st'.network = st.network ∧ st'.lock = st.lock ∧
      st'.files = st.files ∧ st'.writes = st.writes := by
  obtain ⟨vis, hrun⟩ := reqLoop_no_network env fuel reqs
    { st with visited := [] } hgit hsat
  exact ⟨_, hrun, rfl, rfl, rfl, rfl⟩

/-- The parsed bare requirement `markdown` (no specifier, marker, extras). -/
def mdReq : Req Unit Unit where
  name := "markdown"
  extras := []
  specifier := none
  marker := none

/-- Packaging instance whose requirement parser accepts exactly the string
`"markdown"`. -/
def mdPackaging : Packaging Nat Unit Unit :=
  { natPackaging with
    parseReq := fun s => if s = "markdown" then some mdReq else none }

/-- Environment over `mdPackaging` with no reachable network. -/
def mdEnv : Env Nat Unit Unit := { natEnv with P := mdPackaging }

/-- Witness for the amended C5 statement: re-running over a manifest that
already bundles `markdown` issues zero network calls and leaves everything
unchanged. -/
theorem c5_idempotent_rerun_witness :
    ∃ st', resolveAndDownloadPackages mdEnv 1 ["markdown"] mdState = .ok st' ∧
      st'.network = mdState.network ∧ st'.lock = mdState.lock ∧
      st'.files = mdState.files ∧ st'.writes = mdState.writes :=
  c5_idempotent_rerun mdEnv 1 ["markdown"] mdState
    (by intro r hr; rcases List.mem_singleton.mp hr with rfl; rfl)
    (by
      intro r hr req hreq
      rcases List.mem_singleton.mp hr with rfl
      have h : mdEnv.P.parseReq "markdown" = some mdReq := rfl
      rw [h, Option.some.injEq] at hreq
      subst hreq
      rfl)

/-- The git build result produced by `gitEnv`: a pure wheel for `gpkg` 1.0
with no dependencies. -/
def gpkgBuild : GitBuildResult where
  wheelName := "gpkg-1.0-py3-none-any.whl"
  name := "gpkg"
  version := "1.0"
  requiresDist := []
  imports := ["gpkg"]

/-- Environment whose git builder always produces `gpkgBuild`. -/
def gitEnv : Env Nat Unit Unit :=
  { natEnv with buildGit := fun _ => some gpkgBuild }

/-- Initial state for the git re-run counterexample: empty manifest, no
archives. -/
def gitSt0 : RState where
  lock := some { packages := [] }
  files := []
  visited := []
  network := 0
  writes := 0

/-- The state after the first git run: the built wheel is on disk and
registered; one network/build operation happened. -/
def gitSt1 : RState where
  lock := some { packages := [("gpkg",
    { name := "gpkg", version := "1.0",
      fileName := "gpkg-1.0-py3-none-any.whl", installDir := "site",
      sha256 := "sha", packageType := "package", depends := [],
      imports := ["gpkg"] })] }
  files := ["gpkg-1.0-py3-none-any.whl"]
  visited := [("gpkg", "1.0")]
  network := 1
  writes := 1

/-- **C5 counterexample.** A requirement list containing a git requirement is
*not* idempotent in network calls: the git branch has no manifest
short-circuit, so the second run with manifest and requirement list unchanged
invokes `build_git_wheel` (a network/build operation) again — the network
counter rises from 1 to 2 instead of staying put, contradicting the claimed
zero network calls on a re-run. -/
theorem c5_counterexample :
    (resolveAndDownloadPackages gitEnv 1 ["git+https://example.com/g.git"]
      gitSt0).toOption = some gitSt1 ∧
    (resolveAndDownloadPackages gitEnv 1 ["git+https://example.com/g.git"]
      gitSt1).toOption = some { gitSt1 with network := 2, writes := 2 } ∧
    (2 : Nat) ≠ gitSt1.network := by
  refine ⟨by decide, by decide, by decide⟩

/-! ### Error aggregation and the two checkpoints (C6)

```python
def check_patch_errors():
    if not _patch_errors:
        return
    ...print a report line per (step, msg)...
    sys.exit(1)
```
`main()` calls `check_patch_errors()` exactly twice: after the patch phase
and before the network-bound package downloads (build.py:1983), and after
`verify_build` (build.py:2002).
-/

/-- `check_patch_errors()`: `none` models returning normally; `some report`
models printing one `[step] message` line per accumulated pair and calling
`sys.exit(1)`. -/
def checkPatchErrors (errs : List (String × String)) :
    Option (List (String × String)) :=
  if errs.isEmpty then none else some errs

/-- Outcome of the pipeline skeleton. -/
inductive BuildOutcome
  | exitedNonZero (report : List (String × String))
  | completed
deriving DecidableEq

/-- The checkpoint skeleton of `main()` (build.py:1982–2002):
`errsAfterPatches` is the error list accumulated by the patch phase when the
first checkpoint runs; the phases between the checkpoints (marimo-base
download, extras resolution, verification) append `later`, and the full list
is checked again after verification.  The boolean records whether the
network-bound resolution phase ran. -/
def mainCheckpoints (errsAfterPatches later : List (String × String)) :
    BuildOutcome × Bool :=
  match checkPatchErrors errsAfterPatches with
  | some report => (.exitedNonZero report, false)
  | none =>
    match checkPatchErrors (errsAfterPatches ++ later) with
    | some report => (.exitedNonZero report, true)
    | none => (.completed, true)

/-- **C6.** The pipeline exits non-zero with the accumulated report at a
checkpoint iff the error list there is non-empty: a non-empty list at the
first checkpoint aborts before the resolution phase runs (fail fast); a
non-empty list at the second aborts after it; with both lists empty the run
completes (exit zero); and any emitted report is non-empty. -/
theorem c6_checkpoints (e1 later : List (String × String)) :
    ((mainCheckpoints e1 later).1 = .completed ↔ e1 = [] ∧ later = []) ∧
    (e1 ≠ [] → mainCheckpoints e1 later = (.exitedNonZero e1, false)) ∧
    (e1 = [] → later ≠ [] →
      mainCheckpoints e1 later = (.exitedNonZero later, true)) ∧
    (∀ r, (mainCheckpoints e1 later).1 = .exitedNonZero r → r ≠ []) := by
  by_cases h1 : e1 = []
  · subst h1
    by_cases h2 : later = []
    · subst h2
      exact ⟨by simp [mainCheckpoints, checkPatchErrors],
        fun h => absurd rfl h, fun _ h => absurd rfl h,
        by simp [mainCheckpoints, checkPatchErrors]⟩
    · have hmc : mainCheckpoints [] later = (.exitedNonZero later, true) := by
        simp [mainCheckpoints, checkPatchErrors, h2]
      refine ⟨?_, fun h => absurd rfl h, fun _ _ => hmc, ?_⟩
      · rw [hmc]
        simp [h2]
      · intro r hr
        rw [hmc] at hr
        simp only [BuildOutcome.exitedNonZero.injEq] at hr
        rw [← hr]
        exact h2
  · have hmc : mainCheckpoints e1 later = (.exitedNonZero e1, false) := by
      simp [mainCheckpoints, checkPatchErrors, h1]
    refine ⟨?_, fun _ => hmc, fun h => absurd h h1, ?_⟩
    · rw [hmc]
      simp [h1]
    · intro r hr
      rw [hmc] at hr
      simp only [BuildOutcome.exitedNonZero.injEq] at hr
      rw [← hr]
      exact h1

/-- Witness for C6: one recorded patch failure makes the first checkpoint
exit non-zero, before resolution runs. -/
theorem c6_checkpoints_witness :
    mainCheckpoints [("mode-url-sync", "boom")] [] =
      (.exitedNonZero [("mode-url-sync", "boom")], false) :=
  (c6_checkpoints [("mode-url-sync", "boom")] []).2.1 (by decide)

/-! ### Patch engine: `patch_mode_url_sync` (C7, build.py:621–685) -/

/-- Oracles for the regex searches of `patch_mode_url_sync`:
`findJotaiStore` models `_find_jotai_store(text)`; `findModeAtom` models
`re.search(r'const (\w+)=\w+\(\{mode:', text)` returning the captured
variable; `findExportPos` models `re.search(r'export\{', text)` returning
the match start as a character index. -/
structure PatchOracle where
  findJotaiStore : String → Option String
  findModeAtom : String → Option String
  findExportPos : String → Option Nat

/-- The injected subscription snippet (the f-string at build.py:661–667). -/
def subscriptionSnippet (store modeAtom : String) : String :=
  store ++ ".sub(" ++ modeAtom ++ ",()=>\x7bvar _m=" ++ store ++ ".get(" ++
    modeAtom ++ ").mode;var _u=new URL(window.location.href);" ++
    "if(_m===\"present\")_u.searchParams.set(\"view-as\",\"present\");" ++
    "else _u.searchParams.delete(\"view-as\");" ++
    "if(_u.href!==window.location.href)history.replaceState(null,\"\",_u.href)\x7d);"

/-- One file of the `patch_mode_url_sync` loop (build.py:634–680): each of the
three pattern mismatches yields the `(step, message)` pair handed to
`patch_error` (and the file is left unchanged); a full match inserts the
subscription before `export{`. -/
def patchModeFile (po : PatchOracle) (path text : String) :
    Except (String × String) String :=
  match po.findJotaiStore text with
  | none => .error ("mode-url-sync", "Could not find jotai store in " ++ path)
  | some store =>
    match po.findModeAtom text with
    | none => .error ("mode-url-sync", "Could not find mode atom in " ++ path)
    | some modeAtom =>
      match po.findExportPos text with
      | none => .error ("mode-url-sync", "Could not find export\x7b in " ++ path)
      | some pos =>
        .ok (String.mk (text.data.take pos) ++
          subscriptionSnippet store modeAtom ++ String.mk (text.data.drop pos))

/-- One fold step of the file loop: a mismatch appends the error and keeps
the file; a match stores the patched text and bumps the patched counter. -/
def patchModeStep (po : PatchOracle)
    (acc : List (String × String) × List (String × String) × Nat)
    (f : String × String) : List (String × String) × List (String × String) × Nat :=
  match patchModeFile po f.1 f.2 with
  | .error e => (acc.1 ++ [f], acc.2.1 ++ [e], acc.2.2)
  | .ok t => (acc.1 ++ [(f.1, t)], acc.2.1, acc.2.2 + 1)

/-- `patch_mode_url_sync(output_dir)`: process every `mode-*.js` file in
order, never raising; when no file was patched, record the summary error
(build.py:682–683).  Returns the resulting tree and the error list. -/
def patchModeUrlSync (po : PatchOracle) (files : List (String × String))
    (errs : List (String × String)) :
    List (String × String) × List (String × String) :=
  let r := files.foldl (patchModeStep po) ([], errs, 0)
  if r.2.2 = 0 then
    (r.1, r.2.1 ++ [("mode-url-sync", "No mode-*.js files were patched")])
  else (r.1, r.2.1)

/-- The file as it stands after its loop iteration. -/
def patchedFile (po : PatchOracle) (f : String × String) : String × String :=
  match patchModeFile po f.1 f.2 with
  | .error _ => f
  | .ok t => (f.1, t)

/-- The error the loop iteration records for a file, if any. -/
def patchErrOf (po : PatchOracle) (f : String × String) :
    Option (String × String) :=
  match patchModeFile po f.1 f.2 with
  | .error e => some e
  | .ok _ => none

theorem patchedFile_fst (po : PatchOracle) (f : String × String) :
    (patchedFile po f).1 = f.1 := by
  cases hpf : patchModeFile po f.1 f.2 <;> simp [patchedFile, hpf]

/-- Closed form of the `patch_mode_url_sync` fold. -/
theorem patchModeFold (po : PatchOracle) :
    ∀ (files : List (String × String))
      (acc : List (String × String) × List (String × String) × Nat),
    files.foldl (patchModeStep po) acc =
      (acc.1 ++ files.map (patchedFile po),
       acc.2.1 ++ files.filterMap (patchErrOf po),
       acc.2.2 + (files.filter (fun f => (patchErrOf po f).isNone)).length) := by
  intro files
  induction files with
  | nil => intro acc; simp
  | cons f rest ih =>
    intro acc
    rw [List.foldl_cons, ih]
    cases hpf : patchModeFile po f.1 f.2 with
    | error e =>
      simp [patchModeStep, patchedFile, patchErrOf, hpf, List.append_assoc]
    | ok t =>
      simp [patchModeStep, patchedFile, patchErrOf, hpf, List.append_assoc]
      omega

/-- **C7.** A pattern mismatch on a file appends the `(step, message)` pair to
the error list and never raises: every targeted file is still processed (the
output tree lists exactly the input files, in order), previously recorded
errors are preserved and each failing file's error lands in the list, and a
non-empty final list is what the report checkpoint prints — so one failed
operation blocks nothing and appears in the final report. -/
theorem c7_patch_isolation (po : PatchOracle) (files : List (String × String))
    (errs : List (String × String)) :
    ((patchModeUrlSync po files errs).1.map Prod.fst = files.map Prod.fst) ∧
    (∃ newErrs, (patchModeUrlSync po files errs).2 = errs ++ newErrs) ∧
    (∀ f ∈ files, ∀ e, patchModeFile po f.1 f.2 = .error e →
      e ∈ (patchModeUrlSync po files errs).2) ∧
    (∀ e, e ∈ (patchModeUrlSync po files errs).2 →
      checkPatchErrors ((patchModeUrlSync po files errs).2) =
        some ((patchModeUrlSync po files errs).2)) := by
  have hfold := patchModeFold po files ([], errs, 0)
  have h1 : (patchModeUrlSync po files errs).1 = files.map (patchedFile po) := by
    rw [patchModeUrlSync, hfold]
    split <;> rfl
  have h2 : (patchModeUrlSync po files errs).2 = errs ++ files.filterMap (patchErrOf po) ∨
      (patchModeUrlSync po files errs).2 =
        errs ++ files.filterMap (patchErrOf po) ++
          [("mode-url-sync", "No mode-*.js files were patched")] := by
    by_cases hz : 0 + (files.filter (fun f => (patchErrOf po f).isNone)).length = 0
    · right
      rw [patchModeUrlSync, hfold, if_pos hz]
    · left
      rw [patchModeUrlSync, hfold, if_neg hz]
  refine ⟨?_, ?_, ?_, ?_⟩
  · rw [h1, List.map_map]
    exact List.map_congr_left fun f _ => patchedFile_fst po f
  · rcases h2 with h | h
    · exact ⟨_, h⟩
    · exact ⟨_, by rw [h, List.append_assoc]⟩
  · intro f hf e he
    have hmem : e ∈ files.filterMap (patchErrOf po) :=
      List.mem_filterMap.mpr ⟨f, hf, by rw [patchErrOf, he]⟩
    rcases h2 with h | h
    · rw [h]; exact List.mem_append_right _ hmem
    · rw [h]
      exact List.mem_append_left _ (List.mem_append_right _ hmem)
  · intro e he
    have hne : (patchModeUrlSync po files errs).2 ≠ [] := List.ne_nil_of_mem he
    rw [checkPatchErrors, if_neg (by simp [List.isEmpty_iff, hne])]

/-- An oracle under which every pattern search fails. -/
def failOracle : PatchOracle where
  findJotaiStore _ := none
  findModeAtom _ := none
  findExportPos _ := none

/-- Witness for C7: the mismatch error for a concrete file is in the final
error list. -/
theorem c7_patch_isolation_witness :
    ("mode-url-sync", "Could not find jotai store in a.js") ∈
      (patchModeUrlSync failOracle [("a.js", "code")] []).2 :=
  (c7_patch_isolation failOracle [("a.js", "code")] []).2.2.1
    ("a.js", "code") (List.mem_singleton.mpr rfl) _ rfl

/-! ### Verifier positive scan (C8, build.py:1750–1759 and 1822–1843) -/

/-- A base-name glob as used in `_REQUIRED_MARKERS`: either an exact file
name (`**/index.html`) or a `pre*suf` pattern (`**/share-*.js`).  `rglob`
matches these against the base name at any directory depth, so tree files
are modelled by base name and content. -/
inductive BaseGlob
  | exact (s : String)
  | star (pre suf : String)

/-- Whether a base name matches the glob (`*` matches any, possibly empty,
run of name characters). -/
def BaseGlob.matchesName : BaseGlob → String → Bool
  | .exact s, b => b == s
  | .star pre suf, b =>
    strStartsWith b pre && strEndsWith b suf &&
      decide (pre.data.length + suf.data.length ≤ b.data.length)

/-- A marker rule `(glob, required substring, description)`. -/
structure MarkerRule where
  glob : BaseGlob
  marker : String
  desc : String

/-- `_REQUIRED_MARKERS` (build.py:1751–1759). -/
def requiredMarkers : List MarkerRule :=
  [⟨.star "share-" ".js", "Notebook still loading", "share-link error fallback"⟩,
   ⟨.star "share-" ".js", "__marimoGetSerializedLayout", "layout embed in share"⟩,
   ⟨.star "layout-" ".js", "__marimoGetSerializedLayout", "layout global exposure"⟩,
   ⟨.star "mode-" ".js", "view-as", "mode URL sync"⟩,
   ⟨.star "layout-" ".js", "searchParams", "layout URL sync"⟩,
   ⟨.exact "index.html", "data-marimo-share", "share-link hash handler"⟩]

/-- The errors the marker scan of `verify_build` records for one rule
(build.py:1823–1843): one `cannot verify` error when no file matches the
glob; otherwise one `missing marker` error when no matching file contains
the substring, and none when some matching file does (the inner loop breaks
at the first hit). -/
def ruleErrors (rule : MarkerRule) (tree : List (String × String)) :
    List (String × String) :=
  let matched := tree.filter (fun f => rule.glob.matchesName f.1)
  if matched.isEmpty then
    [("verify-markers", "No files matching glob - cannot verify " ++ rule.desc)]
  else if matched.any (fun f => containsSub f.2 rule.marker) then []
  else [("verify-markers", "Missing marker for " ++ rule.desc)]

/-- The positive marker scan: the errors of every rule, in rule order,
appended to the run's error list (here started empty). -/
def verifyMarkers (rules : List MarkerRule) (tree : List (String × String)) :
    List (String × String) :=
  rules.foldl (fun errs rule => errs ++ ruleErrors rule tree) []

/-- A rule is satisfied when some file matching its glob contains its
marker. -/
def ruleSatisfied (rule : MarkerRule) (tree : List (String × String)) : Bool :=
  tree.any (fun f => rule.glob.matchesName f.1 && containsSub f.2 rule.marker)

theorem ruleSatisfied_iff (rule : MarkerRule) (tree : List (String × String)) :
    ruleSatisfied rule tree = true ↔
      ∃ f ∈ tree, rule.glob.matchesName f.1 = true ∧
        containsSub f.2 rule.marker = true := by
  rw [ruleSatisfied, List.any_eq_true]
  constructor
  · rintro ⟨f, hf, hp⟩
    rw [Bool.and_eq_true] at hp
    exact ⟨f, hf, hp.1, hp.2⟩
  · rintro ⟨f, hf, h1, h2⟩
    exact ⟨f, hf, by rw [Bool.and_eq_true]; exact ⟨h1, h2⟩⟩

/-- Per-rule precision of the scan: no error for a satisfied rule, exactly
one error for an unsatisfied one. -/
theorem ruleErrors_precision (rule : MarkerRule) (tree : List (String × String)) :
    (ruleSatisfied rule tree = true → ruleErrors rule tree = []) ∧
    (ruleSatisfied rule tree = false → (ruleErrors rule tree).length = 1) := by
  constructor
  · intro hs
    obtain ⟨f, hf, h1, h2⟩ := (ruleSatisfied_iff rule tree).mp hs
    have hmem : f ∈ tree.filter (fun f => rule.glob.matchesName f.1) :=
      List.mem_filter.mpr ⟨hf, h1⟩
    have hne : (tree.filter (fun f => rule.glob.matchesName f.1)).isEmpty = false := by
      rw [List.isEmpty_eq_false]
      exact List.ne_nil_of_mem hmem
    have hany : (tree.filter (fun f => rule.glob.matchesName f.1)).any
        (fun f => containsSub f.2 rule.marker) = true :=
      List.any_eq_true.mpr ⟨f, hmem, h2⟩
    simp only [ruleErrors, hne, Bool.false_eq_true, if_false, hany, if_true]
  · intro hs
    by_cases he : (tree.filter (fun f => rule.glob.matchesName f.1)).isEmpty = true
    · simp only [ruleErrors, he, if_true, List.length_singleton]
    · have he' : (tree.filter (fun f => rule.glob.matchesName f.1)).isEmpty = false := by
        cases hx : (tree.filter (fun f => rule.glob.matchesName f.1)).isEmpty
        · rfl
        · exact absurd hx he
      have hany : (tree.filter (fun f => rule.glob.matchesName f.1)).any
          (fun f => containsSub f.2 rule.marker) = false := by
        cases hx : (tree.filter (fun f => rule.glob.matchesName f.1)).any
            (fun f => containsSub f.2 rule.marker)
        · rfl
        · obtain ⟨f, hmem, h2⟩ := List.any_eq_true.mp hx
          rcases List.mem_filter.mp hmem with ⟨hf, h1⟩
          have := (ruleSatisfied_iff rule tree).mpr ⟨f, hf, h1, h2⟩
          rw [this] at hs
          cases hs
      simp only [ruleErrors, he', Bool.false_eq_true, if_false, hany,
        List.length_singleton]

/-- Closed form of the scan's error count. -/
theorem verifyMarkers_length (tree : List (String × String)) :
    ∀ (rules : List MarkerRule) (acc : List (String × String)),
    (rules.foldl (fun errs rule => errs ++ ruleErrors rule tree) acc).length =
      acc.length + (rules.filter (fun rule => !ruleSatisfied rule tree)).length := by
  intro rules
  induction rules with
  | nil => intro acc; simp
  | cons rule rest ih =>
    intro acc
    rw [List.foldl_cons, ih, List.length_append]
    cases hs : ruleSatisfied rule tree
    · have h1 : (ruleErrors rule tree).length = 1 :=
        (ruleErrors_precision rule tree).2 hs
      rw [h1, List.filter_cons]
      simp only [hs, Bool.not_false, if_true, List.length_cons]
      omega
    · have h0 : ruleErrors rule tree = [] :=
        (ruleErrors_precision rule tree).1 hs
      rw [h0, List.filter_cons]
      simp only [hs, Bool.not_true, Bool.false_eq_true, if_false,
        List.length_nil]
      omega

/-- **C8.** For every marker rule the positive scan records exactly one error
when no file matching the rule's glob contains the required substring (in
particular when no file matches at all), and no error when some matching file
contains it; consequently the scan's error count equals the number of
unsatisfied rules, so removing one required marker from an otherwise
complete tree yields exactly one reported error and satisfied markers yield
none. -/
theorem c8_verifier_precision (rules : List MarkerRule)
    (tree : List (String × String)) :
    (∀ rule ∈ rules,
      (ruleSatisfied rule tree = true → ruleErrors rule tree = []) ∧
      (ruleSatisfied rule tree = false → (ruleErrors rule tree).length = 1)) ∧
    (verifyMarkers rules tree).length =
      (rules.filter (fun rule => !ruleSatisfied rule tree)).length := by
  refine ⟨fun rule _ => ruleErrors_precision rule tree, ?_⟩
  rw [verifyMarkers, verifyMarkers_length tree rules []]
  simp

/-- A tree carrying all `_REQUIRED_MARKERS` but the `view-as` marker of the
mode URL sync rule. -/
def treeMissingOne : List (String × String) :=
  [("share-abc.js", "Notebook still loading __marimoGetSerializedLayout"),
   ("layout-abc.js", "__marimoGetSerializedLayout searchParams"),
   ("mode-abc.js", "nothing here"),
   ("index.html", "data-marimo-share")]

/-- Witness for C8: on the real rule set, a tree missing exactly the
`view-as` marker produces exactly one error. -/
theorem c8_verifier_precision_witness :
    (verifyMarkers requiredMarkers treeMissingOne).length = 1 := by
  have h := (c8_verifier_precision requiredMarkers treeMissingOne).2
  rw [h]
  decide

end Build
